import Mathlib

/-!
Shallow embedding of `src/lib/compiler-cranelift/src/compiler.rs` (the wasmer
Cranelift compiler's `compile_module` pipeline) together with its artifact
normalizers `mach_reloc_to_reloc`, `mach_trap_to_trap` and
`translate_ir_trapcode`.

Machine integers are modelled as `Nat`/`Int` (no overflow is relevant here:
all values are indices, offsets and opaque payloads).  Rust panics
(`panic!`, `expect`, `unimplemented!`) are modelled as
`Except.error (CompileError.internalConsistency _)`.  The external
code-generation backend (Cranelift `Context::compile_and_emit`, the wasm
translator and `compiled_function_unwind_info`) is a black box: it is a
parameter of the embedding (`Env.backendStep`), exactly as the spec treats it
("consumed as a black box that accepts IR and returns machine code +
relocations + traps + unwind descriptors").
-/

namespace Wasmer

/-- Machine-code bytes (`Vec<u8>` payloads are opaque to this pipeline). -/
abbrev Bytes := List Nat

/-- Embeds `wasmer_types::CallingConvention` (only the variants this file inspects
matter; `compile_module` line 91-104 distinguishes `SystemV` from the rest). -/
inductive CallingConvention where
  | systemV
  | windowsFastcall
  | appleAarch64
  deriving DecidableEq, Repr

/-- Embeds `target_lexicon` endianness, used by `WriterRelocate::new(endianness.ok())`. -/
inductive Endianness where
  | little
  | big
  deriving DecidableEq, Repr

/-- The slice of `Target` that `compile_module` reads:
`target.triple().default_calling_convention()` (a `Result`) and
`target.triple().endianness()` (a `Result`). -/
structure Target where
  default_calling_convention : Except Unit CallingConvention
  endianness : Except Unit Endianness

/-- Embeds `isa.frontend_config()`: only `pointer_bytes()` is consumed here
(line 358, `VMOffsets::new_for_trampolines`). -/
structure FrontendConfig where
  pointer_bytes : Nat
  deriving DecidableEq, Repr

/-- A Cranelift common-information-entry, opaque payload
(`gimli::write::CommonInformationEntry`). -/
structure Cie where
  payload : Nat
  deriving DecidableEq, Repr

/-- The slice of the resolved Cranelift ISA that `compile_module` consults
directly: `create_systemv_cie()` (line 93) and `frontend_config()` (line 73).
Everything else the ISA does happens inside the black-box backend. -/
structure Isa where
  create_systemv_cie : Option Cie
  frontend_config : FrontendConfig

/-- Embeds `wasmer_types::FuncType`: parameter and result kinds (kinds opaque). -/
structure FuncType where
  params : List Nat
  results : List Nat
  deriving DecidableEq, Repr

/-- The slice of `wasmer_types::ModuleInfo` used by this file: the dense
signature table, the per-function signature indices (imports first, then local
functions, the dense function index space), and the number of imported
functions. -/
structure ModuleInfo where
  num_imported_functions : Nat
  /-- Embeds `SignatureIndex → FuncType`, dense. -/
  signatures : List FuncType
  /-- Embeds `FunctionIndex → SignatureIndex`, dense, imports first. -/
  functions : List Nat
  deriving DecidableEq, Repr

/-- Modelled from the spec: "index spaces are dense ... imports first"; a
module-wide function index names a local function exactly when it is at least
the number of imported functions, and the local index is the difference
(`ModuleInfo::local_func_index` lives outside `src/`; the spec says a
relocation target is "validated to be genuinely local (fails if the referenced
function is only an import)"). -/
def ModuleInfo.local_func_index (m : ModuleInfo) (func : Nat) : Option Nat :=
  if func < m.num_imported_functions then none
  else some (func - m.num_imported_functions)

/-- Modelled from the spec: the module-wide index of local function `i` in a
dense, imports-first function index space (`ModuleInfo::func_index` lives
outside `src/`). -/
def ModuleInfo.func_index (m : ModuleInfo) (i : Nat) : Nat :=
  m.num_imported_functions + i

/-- Modelled from the spec: "for every imported function ... that import's
concrete signature" — the signatures of the imported functions in import
order (`ModuleInfo::imported_function_types` lives outside `src/`). -/
def ModuleInfo.imported_function_types (m : ModuleInfo) : List FuncType :=
  (m.functions.take m.num_imported_functions).map
    (fun s => m.signatures.getD s ⟨[], []⟩)

/-- Embeds `wasmer_types::CompileError`, restricted to the variants this file
produces.  `internalConsistency` additionally models Rust panics
(`expect`/`panic!`/`unimplemented!`), which the spec calls
`InternalConsistencyError`. -/
inductive CompileError where
  /-- Embeds `CompileError::Codegen` (isa resolution failure, `compile_and_emit`
  failure). -/
  | codegen (msg : String)
  /-- Embeds `CompileError::Wasm` — a translation error for one function
  (the spec's `TranslationError`). -/
  | wasm (msg : String)
  /-- A closed-world violation: the spec's `InternalConsistencyError`
  (panicking paths in `mach_reloc_to_reloc` / `translate_ir_trapcode`). -/
  | internalConsistency (msg : String)
  deriving DecidableEq, Repr

/-- Embeds `cranelift_codegen::ir::ExternalName`, the relocation-name shapes
`mach_reloc_to_reloc` distinguishes (line 400-411). -/
inductive ExternalName where
  | user (ns : Nat) (index : Nat)
  | libCall (libcall : Nat)
  | testcase
  deriving DecidableEq, Repr

/-- Embeds `cranelift_codegen::MachReloc` (line 394-399): offset, kind, name, addend.
The relocation kind is opaque to the normalizer. -/
structure MachReloc where
  offset : Nat
  kind : Nat
  name : ExternalName
  addend : Int
  deriving DecidableEq, Repr

/-- Embeds `wasmer_types::RelocationTarget`, the portable relocation target. -/
inductive RelocationTarget where
  | localFunc (index : Nat)
  | libCall (libcall : Nat)
  deriving DecidableEq, Repr

/-- Embeds `wasmer_types::Relocation` (line 412-417). -/
structure Relocation where
  kind : Nat
  reloc_target : RelocationTarget
  offset : Nat
  addend : Int
  deriving DecidableEq, Repr

/-- Modelled from the spec: "a relocation targeting a recognized runtime
intrinsic is normalized to `LibCall(id)`" — `irlibcall_to_libcall` lives in
`translator/`, outside `src/`; the intrinsic id passes through. -/
def irlibcall_to_libcall (libcall : Nat) : Nat := libcall

/-- Modelled from the spec: relocation kinds are normalized by a fixed
backend-to-portable table (`irreloc_to_relocationkind` lives outside `src/`);
the kind is opaque here. -/
def irreloc_to_relocationkind (kind : Nat) : Nat := kind

/-- Embeds `mach_reloc_to_reloc` (line 393-418).  The `expect("The provided function
should be local")` and the `panic!("unrecognized external name")` are modelled
as `internalConsistency` errors.  The `debug_assert_eq!(namespace, 0)` is
compiled out in release builds and is not modelled. -/
def mach_reloc_to_reloc (module : ModuleInfo) (reloc : MachReloc) :
    Except CompileError Relocation :=
  match reloc.name with
  | .user _ns index =>
    match module.local_func_index index with
    | some local_index =>
      .ok ⟨irreloc_to_relocationkind reloc.kind, .localFunc local_index,
        reloc.offset, reloc.addend⟩
    | none => .error (.internalConsistency "The provided function should be local")
  | .libCall libcall =>
    .ok ⟨irreloc_to_relocationkind reloc.kind, .libCall (irlibcall_to_libcall libcall),
      reloc.offset, reloc.addend⟩
  | _ => .error (.internalConsistency "unrecognized external name")

/-- Embeds `cranelift_codegen::ir::TrapCode`: the backend trap codes reaching
`translate_ir_trapcode` (line 430-445). -/
inductive IrTrapCode where
  | stackOverflow
  | heapOutOfBounds
  | heapMisaligned
  | tableOutOfBounds
  | indirectCallToNull
  | badSignature
  | integerOverflow
  | integerDivisionByZero
  | badConversionToInteger
  | unreachableCodeReached
  | interrupt
  | user (code : Nat)
  deriving DecidableEq, Repr

/-- Embeds `wasmer_types::TrapCode`: the portable trap kinds produced here. -/
inductive TrapCode where
  | stackOverflow
  | heapAccessOutOfBounds
  | heapMisaligned
  | tableAccessOutOfBounds
  | indirectCallToNull
  | badSignature
  | integerOverflow
  | integerDivisionByZero
  | badConversionToInteger
  | unreachableCodeReached
  deriving DecidableEq, Repr

/-- Embeds `translate_ir_trapcode` (line 429-446).  The two `unimplemented!` arms are
modelled as loud failures (`internalConsistency`), never as a default kind. -/
def translate_ir_trapcode (trap : IrTrapCode) : Except CompileError TrapCode :=
  match trap with
  | .stackOverflow => .ok .stackOverflow
  | .heapOutOfBounds => .ok .heapAccessOutOfBounds
  | .heapMisaligned => .ok .heapMisaligned
  | .tableOutOfBounds => .ok .tableAccessOutOfBounds
  | .indirectCallToNull => .ok .indirectCallToNull
  | .badSignature => .ok .badSignature
  | .integerOverflow => .ok .integerOverflow
  | .integerDivisionByZero => .ok .integerDivisionByZero
  | .badConversionToInteger => .ok .badConversionToInteger
  | .unreachableCodeReached => .ok .unreachableCodeReached
  | .interrupt => .error (.internalConsistency "Interrupts not supported")
  | .user _code => .error (.internalConsistency "User trap code not supported")

/-- Embeds `cranelift_codegen::MachTrap` (line 421): code offset and backend code. -/
structure MachTrap where
  offset : Nat
  code : IrTrapCode
  deriving DecidableEq, Repr

/-- Embeds `wasmer_types::TrapInformation` (line 422-425). -/
structure TrapInformation where
  code_offset : Nat
  trap_code : TrapCode
  deriving DecidableEq, Repr

/-- Embeds `mach_trap_to_trap` (line 420-426): keeps the offset, translates the code.
The panic inside `translate_ir_trapcode` surfaces as an error. -/
def mach_trap_to_trap (trap : MachTrap) : Except CompileError TrapInformation :=
  match translate_ir_trapcode trap.code with
  | .ok code => .ok ⟨trap.offset, code⟩
  | .error e => .error e

/-- A per-function unwind descriptor as it leaves the backend, before
`to_fde`: opaque payload (`gimli` FDE in source). -/
structure RawFde where
  payload : Nat
  deriving DecidableEq, Repr

/-- A frame-descriptor-entry after symbolic addressing: the source calls
`fde.to_fde(Address::Symbol { symbol, addend })` (line 171-178). -/
structure Fde where
  payload : Nat
  symbol : Nat
  addend : Int
  deriving DecidableEq, Repr

/-- Embeds `to_fde(Address::Symbol { symbol, addend })`: attach the symbolic address
to the raw descriptor. -/
def RawFde.to_fde (f : RawFde) (symbol : Nat) (addend : Int) : Fde :=
  ⟨f.payload, symbol, addend⟩

/-- Embeds `WriterRelocate::FUNCTION_SYMBOL`: the source comments (line 172-174)
state that symbol "0" is used for functions. -/
def WriterRelocate.FUNCTION_SYMBOL : Nat := 0

/-- Embeds `gimli::write::FrameTable`: the shared frame table — its CIEs and the
FDEs attached to them, in insertion order. -/
structure FrameTable where
  cies : List Cie
  fdes : List (Nat × Fde)
  deriving DecidableEq, Repr

/-- Embeds `FrameTable::default()`. -/
def FrameTable.default : FrameTable := ⟨[], []⟩

/-- Embeds `FrameTable::add_cie`: append the CIE, return its id (line 96). -/
def FrameTable.add_cie (t : FrameTable) (c : Cie) : FrameTable × Nat :=
  (⟨t.cies ++ [c], t.fdes⟩, t.cies.length)

/-- Embeds `FrameTable::add_fde`: append one FDE under a CIE id (line 317). -/
def FrameTable.add_fde (t : FrameTable) (cie_id : Nat) (f : Fde) : FrameTable :=
  ⟨t.cies, t.fdes ++ [(cie_id, f)]⟩

/-- Modelled from the spec: "the backend returns one of several unwind
descriptor shapes ... 'absent' or 'present via the shared frame table'
(table-based) or 'present, self-contained' (windows-style) — the shape is a
variant" (`CraneliftUnwindInfo` lives in `translator/`, outside `src/`). -/
inductive CraneliftUnwindInfo where
  | fde (f : RawFde)
  | windowsX64 (w : Bytes)
  | noInfo
  deriving DecidableEq, Repr

/-- Embeds `wasmer_types::CompiledFunctionUnwindInfo`, the two shapes this file
emits: a pointer into the shared dwarf section, or self-contained
windows-style data. -/
inductive CompiledFunctionUnwindInfo where
  | dwarf
  | windowsX64 (w : Bytes)
  deriving DecidableEq, Repr

/-- Modelled from the spec: `maybe_into_to_windows_unwind` (in `translator/`,
outside `src/`) keeps only the self-contained windows-style shape; the
table-based and absent shapes give `none`. -/
def CraneliftUnwindInfo.maybe_into_to_windows_unwind :
    CraneliftUnwindInfo → Option CompiledFunctionUnwindInfo
  | .windowsX64 w => some (.windowsX64 w)
  | _ => none

/-- The `match compiled_function_unwind_info(..)?` block (line 167-192): for
the table-based (FDE) shape, keep it only when the shared frame table exists,
recording a `Dwarf` pointer and the FDE addressed by
`Address::Symbol { symbol: FUNCTION_SYMBOL, addend: i }`; every other shape
keeps at most a self-contained windows-style descriptor and contributes no
FDE. -/
def unwind_info_and_fde (have_frametable : Bool) (i : Nat) :
    CraneliftUnwindInfo → Option CompiledFunctionUnwindInfo × Option Fde
  | .fde raw =>
    if have_frametable then
      (some .dwarf, some (raw.to_fde WriterRelocate.FUNCTION_SYMBOL (i : Int)))
    else (none, none)
  | other => (other.maybe_into_to_windows_unwind, none)

/-- Embeds `wasmer_types::FunctionBody`: machine code plus optional unwind info. -/
structure FunctionBody where
  body : Bytes
  unwind_info : Option CompiledFunctionUnwindInfo
  deriving DecidableEq, Repr

/-- Embeds `wasmer_types::CompiledFunctionFrameInfo`: the address map (opaque here,
produced by the external `get_function_address_map`) and the trap list. -/
structure CompiledFunctionFrameInfo where
  address_map : Nat
  traps : List TrapInformation
  deriving DecidableEq, Repr

/-- Embeds `wasmer_types::CompiledFunction` (line 198-205). -/
structure CompiledFunction where
  body : FunctionBody
  relocations : List Relocation
  frame_info : CompiledFunctionFrameInfo
  deriving DecidableEq, Repr

/-- A custom binary section (`wasmer_types::CustomSection`), payload opaque. -/
structure CustomSection where
  bytes : Bytes
  deriving DecidableEq, Repr

/-- Embeds `wasmer_types::Dwarf`: the index of the custom section holding the
eh-frame data. -/
structure Dwarf where
  eh_frame : Nat
  deriving DecidableEq, Repr

/-- Embeds `Dwarf::new` (line 324). -/
def Dwarf.new (i : Nat) : Dwarf := ⟨i⟩

/-- Embeds `wasmer_types::Compilation`, the aggregate output.  `PrimaryMap`s with
dense zero-based keys are modelled as lists (the position is the key). -/
structure Compilation where
  functions : List CompiledFunction
  custom_sections : List CustomSection
  function_call_trampolines : List FunctionBody
  dynamic_function_trampolines : List FunctionBody
  debug : Option Dwarf
  deriving DecidableEq, Repr

/-- Embeds `Compilation::new` (line 383-389). -/
def Compilation.new (functions : List CompiledFunction)
    (custom_sections : List CustomSection)
    (function_call_trampolines dynamic_function_trampolines : List FunctionBody)
    (debug : Option Dwarf) : Compilation :=
  ⟨functions, custom_sections, function_call_trampolines,
    dynamic_function_trampolines, debug⟩

/-- Embeds `wasmer_compiler::FunctionBodyData`: one local function's byte-code and
its offset in the module (line 131-132). -/
structure FunctionBodyData where
  data : Bytes
  module_offset : Nat
  deriving DecidableEq, Repr

/-- Embeds `wasmer_types::VMOffsets`, as produced by `new_for_trampolines`:
modelled from the spec as "a shared, target-specific offset table describing
the native calling-convention layout (pointer size, frame layout)". -/
structure VMOffsets where
  pointer_bytes : Nat
  deriving DecidableEq, Repr

/-- Embeds `VMOffsets::new_for_trampolines(frontend_config.pointer_bytes())`
(line 358). -/
def VMOffsets.new_for_trampolines (pointer_bytes : Nat) : VMOffsets :=
  ⟨pointer_bytes⟩

/-- What the black-box backend returns for one function: machine code
(`compile_and_emit`'s `code_buf`), the raw relocations and traps
(`result.buffer.relocs()` / `.traps()`), the unwind descriptor
(`compiled_function_unwind_info`) and the opaque address map
(`get_function_address_map`). -/
structure BackendOutput where
  code : Bytes
  relocs : List MachReloc
  traps : List MachTrap
  unwind : CraneliftUnwindInfo
  address_map : Nat
  deriving DecidableEq, Repr

/-- The external collaborators of `compile_module`, as one parameter record.
`TState` is the `FuncTranslator` scratch state, `Cx` the
`FunctionBuilderContext` scratch state; both are threaded exactly where the
source threads them. -/
structure Env (TState Cx : Type) where
  /-- Embeds `self.config().isa(target)` (line 69-72): ISA resolution may fail. -/
  isaResult : Except String Isa
  /-- Embeds `FuncTranslator::new()` (line 110 / line 217). -/
  translatorNew : TState
  /-- Embeds `FunctionBuilderContext::new()` (line 333 / 350 / 361 / 376). -/
  cxNew : Cx
  /-- The whole per-function translate-and-codegen step (source line 117-195:
  context setup, middleware reader, `func_translator.translate`,
  `compile_and_emit`, `compiled_function_unwind_info`,
  `get_function_address_map`), black-boxed: scratch state in, local function
  index and body in, scratch state and backend output (or the first error)
  out. -/
  backendStep : TState → Nat → FunctionBodyData →
    TState × Except CompileError BackendOutput
  /-- Embeds `make_trampoline_function_call(&*isa, &mut cx, sig)` (line 340),
  black-boxed with its scratch context threading. -/
  make_trampoline_function_call : Cx → FuncType →
    Cx × Except CompileError FunctionBody
  /-- Embeds `make_trampoline_dynamic_function(&*isa, &offsets, &mut cx, func_type)`
  (line 367), black-boxed with its scratch context threading. -/
  make_trampoline_dynamic_function : VMOffsets → Cx → FuncType →
    Cx × Except CompileError FunctionBody
  /-- Embeds `dwarf_frametable.write_eh_frame(&mut eh_frame)` followed by
  `into_section()` (line 319-322), black-boxed `gimli` serialization. -/
  write_eh_frame : Option Endianness → FrameTable → CustomSection

/-- The frame-table construction of line 84-105: `None` for an empty module;
otherwise present exactly when the target's default calling convention is
`SystemV` and the ISA can create a SystemV CIE, in which case the CIE is
added to a fresh table and its id returned. -/
def mkDwarfFrametable (function_body_inputs : List FunctionBodyData)
    (target : Target) (isa : Isa) : Option (FrameTable × Nat) :=
  if function_body_inputs.isEmpty then none
  else
    match target.default_calling_convention with
    | .ok .systemV =>
      match isa.create_systemv_cie with
      | some cie => some (FrameTable.default.add_cie cie)
      | none => none
    | _ => none

/-- Fallible map with fail-fast semantics: Rust's
`.map(f).collect::<Result<Vec<_>, _>>()` — the first error wins, later items
are not evaluated. -/
def mapE {ι α E : Type} (g : ι → Except E α) : List ι → Except E (List α)
  | [] => .ok []
  | x :: rest =>
    match g x with
    | .error e => .error e
    | .ok a => (mapE g rest).map (a :: ·)

/-- One ordered chunk of work items processed with a threaded scratch state:
the shape of both the sequential branch (one chunk, one reused scratch) and of
each rayon `map_init` split (fresh scratch per chunk).  Fail-fast, like
`collect::<Result<_, _>>()`. -/
def runChunk {S ι α E : Type} (step : S → ι → S × Except E α) :
    S → List ι → Except E (List α)
  | _, [] => .ok []
  | s, x :: rest =>
    match (step s x).2 with
    | .error e => .error e
    | .ok a => (runChunk step (step s x).1 rest).map (a :: ·)

/-- The rayon `par_iter().map_init(init, ..).collect::<Result<Vec<_>, _>>()`
shape: the work list is split into chunks, every chunk gets a fresh scratch
state from `init`, and the per-chunk results are re-assembled in the original
(index) order regardless of which chunk finished first. -/
def runChunks {S ι α E : Type} (step : S → ι → S × Except E α) (init : S)
    (chunks : List (List ι)) : Except E (List α) :=
  (mapE (runChunk step init) chunks).map List.flatten

/-- The per-function pipeline after the backend returned (line 152-207):
normalize relocations (`mach_reloc_to_reloc`), normalize traps
(`mach_trap_to_trap`), split the unwind descriptor into the function's
`unwind_info` and an optional FDE, and assemble the `CompiledFunction`. -/
def compileOneResult (module : ModuleInfo) (have_frametable : Bool) (i : Nat)
    (r : Except CompileError BackendOutput) :
    Except CompileError (CompiledFunction × Option Fde) :=
  match r with
  | .error e => .error e
  | .ok out =>
    match mapE (mach_reloc_to_reloc module) out.relocs with
    | .error e => .error e
    | .ok func_relocs =>
      match mapE mach_trap_to_trap out.traps with
      | .error e => .error e
      | .ok traps =>
        .ok (⟨⟨out.code, (unwind_info_and_fde have_frametable i out.unwind).1⟩,
          func_relocs, ⟨out.address_map, traps⟩⟩,
          (unwind_info_and_fde have_frametable i out.unwind).2)

/-- One full per-function task (the closure of line 116-208 / 217-309):
run the black-box backend with the threaded translator scratch, then
normalize its output. -/
def compileOne {TState Cx : Type} (env : Env TState Cx) (module : ModuleInfo)
    (have_frametable : Bool) (t : TState) (i : Nat) (input : FunctionBodyData) :
    TState × Except CompileError (CompiledFunction × Option Fde) :=
  let (t', r) := env.backendStep t i input
  (t', compileOneResult module have_frametable i r)

/-- The eh-frame emission of line 314-327: when the frame table exists, add
every collected FDE (in collection order, `Option`s flattened), serialize the
table, append it as one custom section to the (empty so far) custom-section
list, and point `dwarf` at that section's index (`custom_sections.len() - 1`);
otherwise leave the list and the pointer untouched. -/
def emitDwarfSection {TState Cx : Type} (env : Env TState Cx) (target : Target)
    (dwarf_frametable : Option (FrameTable × Nat)) (fdes : List (Option Fde))
    (custom_sections : List CustomSection) :
    List CustomSection × Option Dwarf :=
  match dwarf_frametable with
  | some (ft, cie_id) =>
    let ft := (fdes.reduceOption).foldl (fun t f => t.add_fde cie_id f) ft
    let eh_frame_section := env.write_eh_frame target.endianness.toOption ft
    let cs := custom_sections ++ [eh_frame_section]
    (cs, some (Dwarf.new (cs.length - 1)))
  | none => (custom_sections, none)

/-- Embeds `compile_module` (line 62-390) with the sequential branches
(`#[cfg(not(feature = "rayon"))]`): resolve the ISA, build the frame table
precondition, compile every local function in index order with one reused
translator scratch, emit the dwarf section, generate the call trampolines
over the module signatures and the dynamic trampolines over the imported
function types (each pass with one fresh builder context threaded through),
and assemble the aggregate.  Any failure aborts the whole compile. -/
def compile_module_seq {TState Cx : Type} (env : Env TState Cx)
    (target : Target) (module : ModuleInfo)
    (function_body_inputs : List FunctionBodyData) :
    Except CompileError Compilation :=
  match env.isaResult with
  | .error error => .error (.codegen error)
  | .ok isa =>
    let dwarf_frametable := mkDwarfFrametable function_body_inputs target isa
    match runChunk
        (fun t p => compileOne env module dwarf_frametable.isSome t p.1 p.2)
        env.translatorNew function_body_inputs.enum with
    | .error e => .error e
    | .ok results =>
      let functions := results.map Prod.fst
      let fdes := results.map Prod.snd
      -- `custom_sections` starts empty (line 107) and receives at most the
      -- eh-frame section.
      let (custom_sections, dwarf) :=
        emitDwarfSection env target dwarf_frametable fdes []
      match runChunk (fun cx sig => env.make_trampoline_function_call cx sig)
          env.cxNew module.signatures with
      | .error e => .error e
      | .ok function_call_trampolines =>
        let offsets :=
          VMOffsets.new_for_trampolines isa.frontend_config.pointer_bytes
        match runChunk
            (fun cx func_type =>
              env.make_trampoline_dynamic_function offsets cx func_type)
            env.cxNew module.imported_function_types with
        | .error e => .error e
        | .ok dynamic_function_trampolines =>
          .ok (Compilation.new functions custom_sections
            function_call_trampolines dynamic_function_trampolines dwarf)

/-- Embeds `compile_module` (line 62-390) with the rayon branches
(`#[cfg(feature = "rayon")]`): identical pipeline, except that each of the
three fan-outs is split into chunks (rayon's work splits), every chunk starts
from a fresh scratch state (`map_init`'s init closure: `FuncTranslator::new` /
`FunctionBuilderContext::new`), and `collect` re-assembles the chunk results
in the original index order no matter which chunk completed first.  The chunk
lists are parameters because rayon chooses them nondeterministically; theorems
constrain them to partition the original work list. -/
def compile_module_rayon {TState Cx : Type} (env : Env TState Cx)
    (target : Target) (module : ModuleInfo)
    (function_body_inputs : List FunctionBodyData)
    (funcChunks : List (List (Nat × FunctionBodyData)))
    (callChunks dynChunks : List (List FuncType)) :
    Except CompileError Compilation :=
  match env.isaResult with
  | .error error => .error (.codegen error)
  | .ok isa =>
    let dwarf_frametable := mkDwarfFrametable function_body_inputs target isa
    match runChunks
        (fun t p => compileOne env module dwarf_frametable.isSome t p.1 p.2)
        env.translatorNew funcChunks with
    | .error e => .error e
    | .ok results =>
      let functions := results.map Prod.fst
      let fdes := results.map Prod.snd
      let (custom_sections, dwarf) :=
        emitDwarfSection env target dwarf_frametable fdes []
      match runChunks (fun cx sig => env.make_trampoline_function_call cx sig)
          env.cxNew callChunks with
      | .error e => .error e
      | .ok function_call_trampolines =>
        let offsets :=
          VMOffsets.new_for_trampolines isa.frontend_config.pointer_bytes
        match runChunks
            (fun cx func_type =>
              env.make_trampoline_dynamic_function offsets cx func_type)
            env.cxNew dynChunks with
        | .error e => .error e
        | .ok dynamic_function_trampolines =>
          .ok (Compilation.new functions custom_sections
            function_call_trampolines dynamic_function_trampolines dwarf)

/-- The spec's purity assumption on the black-box backend (§4.2/§5: the
translator/builder scratch is disposable and never influences the produced
artifact): the `Except` component of `backendStep` does not depend on the
threaded scratch state. -/
def BackendPure {TState Cx : Type} (env : Env TState Cx) : Prop :=
  ∀ t t' i input, (env.backendStep t i input).2 = (env.backendStep t' i input).2

/-- Spec §4.4: `make_trampoline_function_call` is "a pure function of
`(isa, signature)` with no shared mutable state other than a disposable
per-worker scratch builder context". -/
def TrampCallPure {TState Cx : Type} (env : Env TState Cx) : Prop :=
  ∀ cx cx' sig, (env.make_trampoline_function_call cx sig).2 =
    (env.make_trampoline_function_call cx' sig).2

/-- Spec §4.4: `make_trampoline_dynamic_function` is "a pure function of
`(isa, import-type)`" apart from its disposable scratch builder context. -/
def TrampDynPure {TState Cx : Type} (env : Env TState Cx) : Prop :=
  ∀ offsets cx cx' func_type,
    (env.make_trampoline_dynamic_function offsets cx func_type).2 =
    (env.make_trampoline_dynamic_function offsets cx' func_type).2

/-! ### Pure per-task views of the black boxes -/

/-- The backend's answer for local function `i` with body `input`, evaluated
at the fresh translator scratch (`FuncTranslator::new`); under `BackendPure`
this is the answer from every scratch state. -/
def outAt {TState Cx : Type} (env : Env TState Cx) (i : Nat)
    (input : FunctionBodyData) : Except CompileError BackendOutput :=
  (env.backendStep env.translatorNew i input).2

/-- The scratch-free view of one per-function task. -/
def funcTask {TState Cx : Type} (env : Env TState Cx) (module : ModuleInfo)
    (have_frametable : Bool) (p : Nat × FunctionBodyData) :
    Except CompileError (CompiledFunction × Option Fde) :=
  compileOneResult module have_frametable p.1 (outAt env p.1 p.2)

/-- The scratch-free view of one signature-trampoline task. -/
def callTask {TState Cx : Type} (env : Env TState Cx) (sig : FuncType) :
    Except CompileError FunctionBody :=
  (env.make_trampoline_function_call env.cxNew sig).2

/-- The scratch-free view of one dynamic-trampoline task. -/
def dynTask {TState Cx : Type} (env : Env TState Cx) (offsets : VMOffsets)
    (func_type : FuncType) : Except CompileError FunctionBody :=
  (env.make_trampoline_dynamic_function offsets env.cxNew func_type).2

/-- The FDE that local function `p` contributes when the shared frame table
exists (the second component of its per-function task). -/
def fdeTaskAt {TState Cx : Type} (env : Env TState Cx) (module : ModuleInfo)
    (p : Nat × FunctionBodyData) : Option Fde :=
  match funcTask env module true p with
  | .ok a => a.2
  | .error _ => none

/-! ### Concrete instances used to exercise the theorems -/

/-- A concrete CIE payload. -/
def cieW : Cie := ⟨7⟩

/-- A concrete ISA: can create a SystemV CIE, 8-byte pointers. -/
def isaW : Isa := ⟨some cieW, ⟨8⟩⟩

/-- A concrete SystemV little-endian target. -/
def targetW : Target := ⟨.ok .systemV, .ok .little⟩

/-- A concrete target whose default calling convention is not SystemV. -/
def targetNoSysV : Target := ⟨.ok .windowsFastcall, .ok .little⟩

/-- A concrete function signature. -/
def sigW : FuncType := ⟨[1], [2]⟩

/-- A concrete module: one imported function, one signature, one local
function (function index space `[import, local]`, both of signature 0). -/
def moduleW : ModuleInfo := ⟨1, [sigW], [0, 0]⟩

/-- A concrete local function body. -/
def inputW : FunctionBodyData := ⟨[3, 4], 5⟩

/-- A one-function body list. -/
def inputsW : List FunctionBodyData := [inputW]

/-- A concrete backend output for function `i`: code `[i]`, no relocations,
no traps, no unwind info. -/
def outW (i : Nat) : BackendOutput := ⟨[i], [], [], .noInfo, 0⟩

/-- A concrete environment whose black boxes always succeed and ignore their
scratch state; the backend reports no unwind info. -/
def envW : Env Unit Unit where
  isaResult := .ok isaW
  translatorNew := ()
  cxNew := ()
  backendStep := fun _ i _ => ((), .ok (outW i))
  make_trampoline_function_call := fun _ sig => ((), .ok ⟨sig.params, none⟩)
  make_trampoline_dynamic_function := fun _ _ sig => ((), .ok ⟨sig.results, none⟩)
  write_eh_frame := fun _ ft => ⟨[ft.fdes.length]⟩

/-- Like `envW`, but the backend reports a table-based (FDE-shaped) unwind
descriptor for every function. -/
def envFde : Env Unit Unit where
  isaResult := .ok isaW
  translatorNew := ()
  cxNew := ()
  backendStep := fun _ i _ => ((), .ok ⟨[i], [], [], .fde ⟨11⟩, 0⟩)
  make_trampoline_function_call := fun _ sig => ((), .ok ⟨sig.params, none⟩)
  make_trampoline_dynamic_function := fun _ _ sig => ((), .ok ⟨sig.results, none⟩)
  write_eh_frame := fun _ ft => ⟨[ft.fdes.length]⟩

/-- A concrete module with five local functions and no imports. -/
def module5 : ModuleInfo := ⟨0, [sigW], [0, 0, 0, 0, 0]⟩

/-- Five local function bodies. -/
def inputs5 : List FunctionBodyData := [⟨[0], 0⟩, ⟨[1], 0⟩, ⟨[2], 0⟩, ⟨[3], 0⟩, ⟨[4], 0⟩]

/-- Like `envW`, but translation of local function 2 fails. -/
def env5 : Env Unit Unit where
  isaResult := .ok isaW
  translatorNew := ()
  cxNew := ()
  backendStep := fun _ i _ =>
    ((), if i = 2 then .error (.wasm "malformed byte-code in local function 2")
      else .ok (outW i))
  make_trampoline_function_call := fun _ sig => ((), .ok ⟨sig.params, none⟩)
  make_trampoline_dynamic_function := fun _ _ sig => ((), .ok ⟨sig.results, none⟩)
  write_eh_frame := fun _ ft => ⟨[ft.fdes.length]⟩

/-- Like `envW`, but signature-trampoline generation fails. -/
def envTrampFail : Env Unit Unit where
  isaResult := .ok isaW
  translatorNew := ()
  cxNew := ()
  backendStep := fun _ i _ => ((), .ok (outW i))
  make_trampoline_function_call := fun _ _ =>
    ((), .error (.codegen "trampoline codegen failed at signature 0"))
  make_trampoline_dynamic_function := fun _ _ sig => ((), .ok ⟨sig.results, none⟩)
  write_eh_frame := fun _ ft => ⟨[ft.fdes.length]⟩

/-- Like `envW`, but dynamic-trampoline generation fails. -/
def envDynFail : Env Unit Unit where
  isaResult := .ok isaW
  translatorNew := ()
  cxNew := ()
  backendStep := fun _ i _ => ((), .ok (outW i))
  make_trampoline_function_call := fun _ sig => ((), .ok ⟨sig.params, none⟩)
  make_trampoline_dynamic_function := fun _ _ _ =>
    ((), .error (.codegen "dynamic trampoline codegen failed at import 0"))
  write_eh_frame := fun _ ft => ⟨[ft.fdes.length]⟩

/-- The aggregate produced by `envW` on `targetW`/`moduleW`/`inputsW`. -/
def cW : Compilation :=
  ⟨[⟨⟨[0], none⟩, [], ⟨0, []⟩⟩], [⟨[0]⟩], [⟨[1], none⟩], [⟨[2], none⟩],
    some ⟨0⟩⟩

/-- The aggregate produced by `envW` on `targetW`/`moduleW` with zero local
functions. -/
def cEmpty : Compilation :=
  ⟨[], [], [⟨[1], none⟩], [⟨[2], none⟩], none⟩

/-- The aggregate produced by `envFde` on the non-SystemV target: the
FDE-shaped unwind descriptor is discarded. -/
def cNoFt : Compilation :=
  ⟨[⟨⟨[0], none⟩, [], ⟨0, []⟩⟩], [], [⟨[1], none⟩], [⟨[2], none⟩], none⟩

/-- The aggregate produced by `envFde` on the SystemV target: one FDE lands
in the serialized frame table. -/
def cFde : Compilation :=
  ⟨[⟨⟨[0], some .dwarf⟩, [], ⟨0, []⟩⟩], [⟨[1]⟩], [⟨[1], none⟩], [⟨[2], none⟩],
    some ⟨0⟩⟩

/-! ### Infrastructure lemmas about the fail-fast runners -/

theorem mapE_nil {ι α E : Type} (g : ι → Except E α) : mapE g [] = .ok [] := rfl

theorem mapE_cons {ι α E : Type} (g : ι → Except E α) (x : ι) (rest : List ι) :
    mapE g (x :: rest) =
      match g x with
      | .error e => .error e
      | .ok a => (mapE g rest).map (a :: ·) := rfl

/-- A successful fail-fast map has exactly one output per input. -/
theorem mapE_ok_length {ι α E : Type} (g : ι → Except E α) (l : List ι) :
    ∀ res, mapE g l = .ok res → res.length = l.length := by
  induction l with
  | nil =>
    intro res h
    simp only [mapE] at h
    cases h
    rfl
  | cons x rest ih =>
    intro res h
    simp only [mapE] at h
    cases hx : g x <;> rw [hx] at h
    · cases h
    · cases hr : mapE g rest <;> rw [hr] at h <;> simp only [Except.map] at h
      · cases h
      · cases h
        simpa using congrArg Nat.succ (ih _ hr)

/-- Element-wise inversion of a successful fail-fast map. -/
theorem mapE_ok_get {ι α E : Type} (g : ι → Except E α) (l : List ι) :
    ∀ res, mapE g l = .ok res → ∀ j x, l.get? j = some x →
      ∃ a, g x = .ok a ∧ res.get? j = some a := by
  induction l with
  | nil => intro res _ j x hx; simp at hx
  | cons y rest ih =>
    intro res h j x hx
    simp only [mapE] at h
    cases hy : g y <;> rw [hy] at h
    · cases h
    · cases hr : mapE g rest <;> rw [hr] at h <;> simp only [Except.map] at h
      · cases h
      · cases h
        cases j with
        | zero =>
          cases hx
          exact ⟨_, hy, rfl⟩
        | succ j =>
          simp only [List.get?] at hx ⊢
          exact ih _ hr j x hx

/-- Fail-fast maps split over append: the first error of the left part wins,
otherwise the results concatenate. -/
theorem mapE_append {ι α E : Type} (g : ι → Except E α) (l₁ l₂ : List ι) :
    mapE g (l₁ ++ l₂) =
      match mapE g l₁ with
      | .error e => .error e
      | .ok res₁ => (mapE g l₂).map (res₁ ++ ·) := by
  induction l₁ with
  | nil =>
    simp only [List.nil_append, mapE]
    cases mapE g l₂ <;> simp [Except.map]
  | cons x rest ih =>
    simp only [List.cons_append, mapE]
    cases hx : g x with
    | error e => rfl
    | ok a =>
      simp only [List.append_eq]
      rw [ih]
      cases hr : mapE g rest with
      | error e => rfl
      | ok r =>
        cases hl : mapE g l₂ with
        | error e => rfl
        | ok r₂ => simp [Except.map]

/-- When the scratch state cannot influence the per-item result, a threaded
chunk run is the plain fail-fast map. -/
theorem runChunk_eq_mapE {S ι α E : Type} (step : S → ι → S × Except E α)
    (g : ι → Except E α) (h : ∀ s x, (step s x).2 = g x) :
    ∀ (s : S) (l : List ι), runChunk step s l = mapE g l := by
  intro s l
  induction l generalizing s with
  | nil => rfl
  | cons x rest ih =>
    simp only [runChunk, mapE, h s x, ih]

/-- When the scratch state cannot influence the per-item result, running any
chunked split of the work list (fresh scratch per chunk, results re-assembled
in order) equals the sequential fail-fast map over the un-split list:
completion order and work splitting never leak into the output. -/
theorem runChunks_eq_mapE {S ι α E : Type} (step : S → ι → S × Except E α)
    (g : ι → Except E α) (h : ∀ s x, (step s x).2 = g x) (init : S)
    (chunks : List (List ι)) :
    runChunks step init chunks = mapE g chunks.flatten := by
  induction chunks with
  | nil => rfl
  | cons c cs ih =>
    simp only [runChunks, mapE, List.flatten_cons,
      runChunk_eq_mapE step g h init c] at *
    rw [mapE_append]
    cases mapE g c <;> simp only [Except.map]
    cases hcs : mapE (runChunk step init) cs <;> rw [hcs] at ih <;>
      simp only [Except.map] at ih ⊢ <;>
      cases hflat : mapE g cs.flatten <;> rw [hflat] at ih <;>
      simp only [Except.map] at ih ⊢
    · exact ih
    · cases ih
    · cases ih
    · cases ih
      rfl

/-- The sequential run equals the chunked run whenever the chunks partition
the work list and the scratch state is output-irrelevant. -/
theorem runChunk_eq_runChunks {S ι α E : Type} (step : S → ι → S × Except E α)
    (g : ι → Except E α) (h : ∀ s x, (step s x).2 = g x) (init : S)
    (l : List ι) (chunks : List (List ι)) (hc : chunks.flatten = l) :
    runChunk step init l = runChunks step init chunks := by
  rw [runChunk_eq_mapE step g h, runChunks_eq_mapE step g h, hc]

/-- Fail-fast run of a list whose prefix succeeds and whose next item fails:
the overall result is that first error. -/
theorem mapE_first_error {ι α E : Type} (g : ι → Except E α)
    (l₁ l₂ : List ι) (x : ι) (res₁ : List α) (e : E)
    (h₁ : mapE g l₁ = .ok res₁) (hx : g x = .error e) :
    mapE g (l₁ ++ x :: l₂) = .error e := by
  rw [mapE_append, h₁]
  simp [mapE, hx, Except.map]

/-- A successful threaded chunk run has exactly one output per input
(no purity assumption needed). -/
theorem runChunk_ok_length {S ι α E : Type} (step : S → ι → S × Except E α)
    (l : List ι) : ∀ (s : S) (res : List α),
    runChunk step s l = .ok res → res.length = l.length := by
  induction l with
  | nil =>
    intro s res h
    simp only [runChunk] at h
    cases h
    rfl
  | cons x rest ih =>
    intro s res h
    simp only [runChunk] at h
    cases hx : (step s x).2 <;> rw [hx] at h
    · cases h
    · cases hr : runChunk step (step s x).1 rest <;> rw [hr] at h <;>
        simp only [Except.map] at h
      · cases h
      · cases h
        simpa using congrArg Nat.succ (ih _ _ hr)

/-- Membership inversion of a successful fail-fast map. -/
theorem mapE_ok_mem {ι α E : Type} (g : ι → Except E α) (l : List ι) :
    ∀ res, mapE g l = .ok res → ∀ a ∈ res, ∃ x ∈ l, g x = .ok a := by
  induction l with
  | nil =>
    intro res h a ha
    simp only [mapE] at h
    cases h
    simp at ha
  | cons y rest ih =>
    intro res h a ha
    simp only [mapE] at h
    cases hy : g y <;> rw [hy] at h
    · cases h
    · cases hr : mapE g rest <;> rw [hr] at h <;> simp only [Except.map] at h
      · cases h
      · cases h
        rcases List.mem_cons.mp ha with rfl | ha
        · exact ⟨y, List.mem_cons_self y rest, hy⟩
        · obtain ⟨x, hx, hgx⟩ := ih _ hr a ha
          exact ⟨x, List.mem_cons_of_mem y hx, hgx⟩

/-- A fail-fast map over a list of items that all succeed succeeds. -/
theorem mapE_ok_of_forall {ι α E : Type} (g : ι → Except E α) (l : List ι)
    (h : ∀ x ∈ l, ∃ a, g x = .ok a) : ∃ res, mapE g l = .ok res := by
  induction l with
  | nil => exact ⟨[], rfl⟩
  | cons x rest ih =>
    obtain ⟨a, ha⟩ := h x (List.mem_cons_self x rest)
    obtain ⟨res, hres⟩ := ih (fun y hy => h y (List.mem_cons_of_mem x hy))
    exact ⟨a :: res, by simp [mapE, ha, hres, Except.map]⟩

/-- Mapping a projection over the results of a successful fail-fast map. -/
theorem mapE_ok_map {ι α β E : Type} (g : ι → Except E α) (f : α → β)
    (k : ι → β) (l : List ι)
    (hpoint : ∀ x a, g x = .ok a → f a = k x) :
    ∀ res, mapE g l = .ok res → res.map f = l.map k := by
  induction l with
  | nil =>
    intro res h
    simp only [mapE] at h
    cases h
    rfl
  | cons x rest ih =>
    intro res h
    simp only [mapE] at h
    cases hx : g x <;> rw [hx] at h
    · cases h
    · cases hr : mapE g rest <;> rw [hr] at h <;> simp only [Except.map] at h
      · cases h
      · cases h
        simp [hpoint x _ hx, ih _ hr]

theorem compileOne_snd {TState Cx : Type} (env : Env TState Cx)
    (module : ModuleInfo) (have_frametable : Bool) (t : TState) (i : Nat)
    (input : FunctionBodyData) :
    (compileOne env module have_frametable t i input).2 =
      compileOneResult module have_frametable i (env.backendStep t i input).2 := by
  unfold compileOne
  cases env.backendStep t i input
  rfl

theorem compileOne_snd_pure {TState Cx : Type} (env : Env TState Cx)
    (module : ModuleInfo) (have_frametable : Bool) (hb : BackendPure env)
    (t : TState) (p : Nat × FunctionBodyData) :
    (compileOne env module have_frametable t p.1 p.2).2 =
      funcTask env module have_frametable p := by
  rw [compileOne_snd, hb t env.translatorNew p.1 p.2]
  rfl

/-- Shared helper: under the spec's scratch-purity assumptions, the rayon
pipeline with any work splits that partition the three work lists computes
exactly the sequential pipeline. -/
theorem compile_rayon_eq_seq {TState Cx : Type} (env : Env TState Cx)
    (target : Target) (module : ModuleInfo) (inputs : List FunctionBodyData)
    (funcChunks : List (List (Nat × FunctionBodyData)))
    (callChunks dynChunks : List (List FuncType))
    (hb : BackendPure env) (hc : TrampCallPure env) (hd : TrampDynPure env)
    (hfc : funcChunks.flatten = inputs.enum)
    (hcc : callChunks.flatten = module.signatures)
    (hdc : dynChunks.flatten = module.imported_function_types) :
    compile_module_rayon env target module inputs funcChunks callChunks
      dynChunks = compile_module_seq env target module inputs := by
  cases hisa : env.isaResult with
  | error e => simp [compile_module_rayon, compile_module_seq, hisa]
  | ok isa =>
    have hfun := compileOne_snd_pure env module
      (mkDwarfFrametable inputs target isa).isSome hb
    have hcall : ∀ (cx : Cx) (sig : FuncType),
        (env.make_trampoline_function_call cx sig).2 = callTask env sig :=
      fun cx sig => hc cx env.cxNew sig
    have hdyn : ∀ (cx : Cx) (func_type : FuncType),
        (env.make_trampoline_dynamic_function
            (VMOffsets.new_for_trampolines isa.frontend_config.pointer_bytes)
            cx func_type).2 =
          dynTask env
            (VMOffsets.new_for_trampolines isa.frontend_config.pointer_bytes)
            func_type :=
      fun cx func_type => hd _ cx env.cxNew func_type
    simp only [compile_module_rayon, compile_module_seq, hisa]
    rw [runChunks_eq_mapE _ _ hfun, runChunk_eq_mapE _ _ hfun, hfc,
      runChunks_eq_mapE _ _ hcall, runChunk_eq_mapE _ _ hcall, hcc,
      runChunks_eq_mapE _ _ hdyn, runChunk_eq_mapE _ _ hdyn, hdc]

/-- Shared helper: inversion of a successful sequential compile into its five
stages. -/
theorem compile_module_seq_ok_inv {TState Cx : Type} {env : Env TState Cx}
    {target : Target} {module : ModuleInfo} {inputs : List FunctionBodyData}
    {c : Compilation}
    (h : compile_module_seq env target module inputs = .ok c) :
    ∃ isa results fct dft cs dwarf,
      env.isaResult = .ok isa ∧
      runChunk
        (fun t p => compileOne env module
          (mkDwarfFrametable inputs target isa).isSome t p.1 p.2)
        env.translatorNew inputs.enum = .ok results ∧
      runChunk (fun cx sig => env.make_trampoline_function_call cx sig)
        env.cxNew module.signatures = .ok fct ∧
      runChunk
        (fun cx func_type => env.make_trampoline_dynamic_function
          (VMOffsets.new_for_trampolines isa.frontend_config.pointer_bytes)
          cx func_type)
        env.cxNew module.imported_function_types = .ok dft ∧
      emitDwarfSection env target (mkDwarfFrametable inputs target isa)
        (results.map Prod.snd) [] = (cs, dwarf) ∧
      c = Compilation.new (results.map Prod.fst) cs fct dft dwarf := by
  unfold compile_module_seq at h
  cases hisa : env.isaResult with
  | error e => rw [hisa] at h; cases h
  | ok isa =>
    rw [hisa] at h
    simp only at h
    cases hres : runChunk
        (fun t p => compileOne env module
          (mkDwarfFrametable inputs target isa).isSome t p.1 p.2)
        env.translatorNew inputs.enum with
    | error e => rw [hres] at h; cases h
    | ok results =>
      rw [hres] at h
      simp only at h
      cases hfct : runChunk
          (fun cx sig => env.make_trampoline_function_call cx sig)
          env.cxNew module.signatures with
      | error e => rw [hfct] at h; cases h
      | ok fct =>
        rw [hfct] at h
        simp only at h
        cases hdft : runChunk
            (fun cx func_type => env.make_trampoline_dynamic_function
              (VMOffsets.new_for_trampolines isa.frontend_config.pointer_bytes)
              cx func_type)
            env.cxNew module.imported_function_types with
        | error e => rw [hdft] at h; cases h
        | ok dft =>
          rw [hdft] at h
          simp only at h
          cases hcs : emitDwarfSection env target
              (mkDwarfFrametable inputs target isa)
              (results.map Prod.snd) [] with
          | mk cs dwarf =>
            rw [hcs] at h
            cases h
            exact ⟨isa, results, fct, dft, cs, dwarf, rfl, hres, rfl, hdft,
              hcs, rfl⟩

/-- Shared helper: inversion of one successful per-function normalization. -/
theorem compileOneResult_ok_inv {module : ModuleInfo} {hft : Bool} {i : Nat}
    {r : Except CompileError BackendOutput} {cf : CompiledFunction}
    {fde : Option Fde}
    (h : compileOneResult module hft i r = .ok (cf, fde)) :
    ∃ out relocs traps, r = .ok out ∧
      mapE (mach_reloc_to_reloc module) out.relocs = .ok relocs ∧
      mapE mach_trap_to_trap out.traps = .ok traps ∧
      cf = ⟨⟨out.code, (unwind_info_and_fde hft i out.unwind).1⟩, relocs,
        ⟨out.address_map, traps⟩⟩ ∧
      fde = (unwind_info_and_fde hft i out.unwind).2 := by
  unfold compileOneResult at h
  cases hr : r with
  | error e => rw [hr] at h; cases h
  | ok out =>
    rw [hr] at h
    simp only at h
    cases hrel : mapE (mach_reloc_to_reloc module) out.relocs with
    | error e => rw [hrel] at h; cases h
    | ok relocs =>
      rw [hrel] at h
      simp only at h
      cases htr : mapE mach_trap_to_trap out.traps with
      | error e => rw [htr] at h; cases h
      | ok traps =>
        rw [htr] at h
        simp only at h
        cases h
        exact ⟨out, relocs, traps, rfl, hrel, htr, rfl, rfl⟩

/-- Shared helper: with the frame table absent the unwind normalization
keeps only the windows-style descriptor. -/
theorem unwind_info_and_fde_false (i : Nat) (u : CraneliftUnwindInfo) :
    unwind_info_and_fde false i u = (u.maybe_into_to_windows_unwind, none) := by
  cases u <;> rfl

/-- Shared helper: `reduceOption` after `map` is `filterMap`. -/
theorem reduceOption_map_eq_filterMap {α β : Type} (h : α → Option β)
    (l : List α) : (l.map h).reduceOption = l.filterMap h := by
  induction l with
  | nil => rfl
  | cons x rest ih =>
    cases hx : h x <;>
      simp [List.reduceOption, List.filterMap_cons, hx,
        List.reduceOption.eq_def ▸ ih]

/-! ### Claim theorems -/

/-- C1: whenever the sequential `compile_module` succeeds on a module with
`N` local function bodies, `M` module signatures and `K` imported functions
(the function index space being `K` imports followed by locals), the
aggregate's `functions` map has exactly `N` entries, its
`call_trampolines` map exactly `M` entries (one per module signature), and
its `dynamic_trampolines` map exactly `K` entries (one per imported
function); the maps are lists, so each entry is keyed by its dense
zero-based position. -/
theorem compile_module_counts {TState Cx : Type} (env : Env TState Cx)
    (target : Target) (module : ModuleInfo) (inputs : List FunctionBodyData)
    (c : Compilation)
    (hwf : module.num_imported_functions ≤ module.functions.length)
    (h : compile_module_seq env target module inputs = .ok c) :
    c.functions.length = inputs.length ∧
    c.function_call_trampolines.length = module.signatures.length ∧
    c.dynamic_function_trampolines.length = module.num_imported_functions := by
  obtain ⟨isa, results, fct, dft, cs, dwarf, hisa, hres, hfct, hdft, hcs, rfl⟩ :=
    compile_module_seq_ok_inv h
  refine ⟨?_, ?_, ?_⟩
  · have hlen := runChunk_ok_length _ _ _ _ hres
    simpa [Compilation.new, List.enum_length] using hlen
  · have hlen := runChunk_ok_length _ _ _ _ hfct
    simpa [Compilation.new] using hlen
  · have hlen := runChunk_ok_length _ _ _ _ hdft
    simp only [Compilation.new]
    rw [hlen]
    simp [ModuleInfo.imported_function_types, Nat.min_eq_left hwf]

/-- C1 witness: the concrete one-import, one-signature, one-local-function
module compiles to an aggregate with one entry in each map. -/
theorem compile_module_counts_witness :
    cW.functions.length = 1 ∧ cW.function_call_trampolines.length = 1 ∧
    cW.dynamic_function_trampolines.length = 1 :=
  compile_module_counts envW targetW moduleW inputsW cW (by decide) (by rfl)

/-- C2: under the spec's scratch-purity of the black boxes (the translator
and builder contexts are disposable scratch), the worker-pool (rayon) mode —
for every way rayon may split the three work lists into chunks — produces
exactly the aggregate of the strictly sequential mode: same `functions`,
`call_trampolines` and `dynamic_trampolines` entries, same bytes, same
relocation and trap lists; work splitting and completion order never affect
the result. -/
theorem compile_module_modes_agree {TState Cx : Type} (env : Env TState Cx)
    (target : Target) (module : ModuleInfo) (inputs : List FunctionBodyData)
    (funcChunks : List (List (Nat × FunctionBodyData)))
    (callChunks dynChunks : List (List FuncType))
    (hb : BackendPure env) (hc : TrampCallPure env) (hd : TrampDynPure env)
    (hfc : funcChunks.flatten = inputs.enum)
    (hcc : callChunks.flatten = module.signatures)
    (hdc : dynChunks.flatten = module.imported_function_types) :
    compile_module_rayon env target module inputs funcChunks callChunks
      dynChunks = compile_module_seq env target module inputs :=
  compile_rayon_eq_seq env target module inputs funcChunks callChunks
    dynChunks hb hc hd hfc hcc hdc

/-- C2 witness: on the concrete module, the one-chunk rayon run equals the
sequential run. -/
theorem compile_module_modes_agree_witness :
    compile_module_rayon envW targetW moduleW inputsW [[(0, inputW)]]
      [[sigW]] [[sigW]] = compile_module_seq envW targetW moduleW inputsW :=
  compile_module_modes_agree envW targetW moduleW inputsW [[(0, inputW)]]
    [[sigW]] [[sigW]] (fun _ _ _ _ => rfl) (fun _ _ _ => rfl)
    (fun _ _ _ _ => rfl) rfl rfl rfl

/-- C5: the sequential `compile_module` is fail-fast across all three
fan-outs, always returning the first error encountered and — the result
being an `Except.error` — no `Compilation` value at all: (1) if the backend
pipeline fails on some local function while every earlier function (in index
order) succeeds, that error is returned; (2) if every function succeeds but
generating the call trampoline of some signature fails while every earlier
signature's succeeds, that error is returned; (3) if every function and
every call trampoline succeeds but generating the dynamic trampoline of some
imported function type fails while every earlier one succeeds, that error is
returned. -/
theorem compile_module_first_error {TState Cx : Type} (env : Env TState Cx)
    (target : Target) (module : ModuleInfo) (inputs : List FunctionBodyData)
    (isa : Isa) (e : CompileError)
    (hb : BackendPure env)
    (hisa : env.isaResult = .ok isa) :
    (∀ (pre post : List (Nat × FunctionBodyData)) (p : Nat × FunctionBodyData),
      inputs.enum = pre ++ p :: post →
      (∀ q ∈ pre, ∃ a,
        funcTask env module (mkDwarfFrametable inputs target isa).isSome q =
          .ok a) →
      funcTask env module (mkDwarfFrametable inputs target isa).isSome p =
        .error e →
      compile_module_seq env target module inputs = .error e) ∧
    (TrampCallPure env →
      ∀ (spre spost : List FuncType) (sig : FuncType),
      module.signatures = spre ++ sig :: spost →
      (∀ q ∈ inputs.enum, ∃ a,
        funcTask env module (mkDwarfFrametable inputs target isa).isSome q =
          .ok a) →
      (∀ s ∈ spre, ∃ b, callTask env s = .ok b) →
      callTask env sig = .error e →
      compile_module_seq env target module inputs = .error e) ∧
    (TrampCallPure env → TrampDynPure env →
      ∀ (dpre dpost : List FuncType) (func_type : FuncType),
      module.imported_function_types = dpre ++ func_type :: dpost →
      (∀ q ∈ inputs.enum, ∃ a,
        funcTask env module (mkDwarfFrametable inputs target isa).isSome q =
          .ok a) →
      (∀ s ∈ module.signatures, ∃ b, callTask env s = .ok b) →
      (∀ s ∈ dpre, ∃ b, dynTask env
        (VMOffsets.new_for_trampolines isa.frontend_config.pointer_bytes) s =
          .ok b) →
      dynTask env
        (VMOffsets.new_for_trampolines isa.frontend_config.pointer_bytes)
        func_type = .error e →
      compile_module_seq env target module inputs = .error e) := by
  have hfun := compileOne_snd_pure env module
    (mkDwarfFrametable inputs target isa).isSome hb
  refine ⟨?_, ?_, ?_⟩
  · intro pre post p hsplit hpre hfail
    obtain ⟨res₁, hres₁⟩ := mapE_ok_of_forall _ pre hpre
    unfold compile_module_seq
    rw [hisa]
    simp only
    rw [runChunk_eq_mapE _ _ hfun, hsplit,
      mapE_first_error _ pre post p res₁ e hres₁ hfail]
  · intro hcpure spre spost sig hsplit hfuncs hspre hfail
    have hcall : ∀ (cx : Cx) (s : FuncType),
        (env.make_trampoline_function_call cx s).2 = callTask env s :=
      fun cx s => hcpure cx env.cxNew s
    obtain ⟨results, hres⟩ := mapE_ok_of_forall _ _ hfuncs
    obtain ⟨res₁, hres₁⟩ := mapE_ok_of_forall _ spre hspre
    unfold compile_module_seq
    rw [hisa]
    simp only
    rw [runChunk_eq_mapE _ _ hfun, hres]
    simp only
    rcases hE : emitDwarfSection env target
        (mkDwarfFrametable inputs target isa) (results.map Prod.snd) []
      with ⟨cs, dw⟩
    rw [runChunk_eq_mapE _ _ hcall, hsplit,
      mapE_first_error _ spre spost sig res₁ e hres₁ hfail]
  · intro hcpure hdpure dpre dpost func_type hsplit hfuncs hsigs hdpre hfail
    have hcall : ∀ (cx : Cx) (s : FuncType),
        (env.make_trampoline_function_call cx s).2 = callTask env s :=
      fun cx s => hcpure cx env.cxNew s
    have hdyn : ∀ (cx : Cx) (s : FuncType),
        (env.make_trampoline_dynamic_function
          (VMOffsets.new_for_trampolines isa.frontend_config.pointer_bytes)
          cx s).2 = dynTask env
          (VMOffsets.new_for_trampolines isa.frontend_config.pointer_bytes)
          s :=
      fun cx s => hdpure _ cx env.cxNew s
    obtain ⟨results, hres⟩ := mapE_ok_of_forall _ _ hfuncs
    obtain ⟨fct, hfct⟩ := mapE_ok_of_forall _ _ hsigs
    obtain ⟨res₁, hres₁⟩ := mapE_ok_of_forall _ dpre hdpre
    unfold compile_module_seq
    rw [hisa]
    simp only
    rw [runChunk_eq_mapE _ _ hfun, hres]
    simp only
    rcases hE : emitDwarfSection env target
        (mkDwarfFrametable inputs target isa) (results.map Prod.snd) []
      with ⟨cs, dw⟩
    rw [runChunk_eq_mapE _ _ hcall, hfct]
    simp only
    rw [runChunk_eq_mapE _ _ hdyn, hsplit,
      mapE_first_error _ dpre dpost func_type res₁ e hres₁ hfail]

/-- C5 witness: the five-function module whose local function 2 has
malformed byte-code returns the function-2 translation error; the module
whose signature-trampoline generation fails returns that error; the module
whose dynamic-trampoline generation fails returns that error — in each case
no partial aggregate. -/
theorem compile_module_first_error_witness :
    compile_module_seq env5 targetW module5 inputs5 =
      .error (.wasm "malformed byte-code in local function 2") ∧
    compile_module_seq envTrampFail targetW moduleW inputsW =
      .error (.codegen "trampoline codegen failed at signature 0") ∧
    compile_module_seq envDynFail targetW moduleW inputsW =
      .error (.codegen "dynamic trampoline codegen failed at import 0") := by
  refine ⟨?_, ?_, ?_⟩
  · exact (compile_module_first_error env5 targetW module5 inputs5 isaW
      (.wasm "malformed byte-code in local function 2")
      (fun _ _ _ _ => rfl) rfl).1
      [(0, ⟨[0], 0⟩), (1, ⟨[1], 0⟩)] [(3, ⟨[3], 0⟩), (4, ⟨[4], 0⟩)]
      (2, ⟨[2], 0⟩) rfl
      (by
        intro q hq
        rcases List.mem_cons.mp hq with rfl | hq
        · exact ⟨_, rfl⟩
        · rcases List.mem_cons.mp hq with rfl | hq
          · exact ⟨_, rfl⟩
          · simp at hq)
      rfl
  · exact (compile_module_first_error envTrampFail targetW moduleW inputsW
      isaW (.codegen "trampoline codegen failed at signature 0")
      (fun _ _ _ _ => rfl) rfl).2.1 (fun _ _ _ => rfl) [] [] sigW rfl
      (by
        intro q hq
        rcases List.mem_cons.mp hq with rfl | hq
        · exact ⟨_, rfl⟩
        · simp at hq)
      (by intro s hs; simp at hs)
      rfl
  · exact (compile_module_first_error envDynFail targetW moduleW inputsW
      isaW (.codegen "dynamic trampoline codegen failed at import 0")
      (fun _ _ _ _ => rfl) rfl).2.2 (fun _ _ _ => rfl) (fun _ _ _ _ => rfl)
      [] [] sigW rfl
      (by
        intro q hq
        rcases List.mem_cons.mp hq with rfl | hq
        · exact ⟨_, rfl⟩
        · simp at hq)
      (by
        intro s hs
        rcases List.mem_cons.mp hs with rfl | hs
        · exact ⟨_, rfl⟩
        · simp at hs)
      (by intro s hs; simp at hs)
      rfl

/-- C6: a module with zero local function bodies never produces an unwind
custom section and never sets the aggregate's `Dwarf` pointer, whatever the
target and ISA (in particular on SystemV targets that would normally emit an
unwind table). -/
theorem empty_module_no_unwind {TState Cx : Type} (env : Env TState Cx)
    (target : Target) (module : ModuleInfo) (c : Compilation)
    (h : compile_module_seq env target module [] = .ok c) :
    c.custom_sections = [] ∧ c.debug = none := by
  obtain ⟨isa, results, fct, dft, cs, dwarf, hisa, hres, hfct, hdft, hcs, rfl⟩ :=
    compile_module_seq_ok_inv h
  have hft : mkDwarfFrametable [] target isa = none := rfl
  rw [hft] at hcs
  simp only [emitDwarfSection, Prod.mk.injEq] at hcs
  obtain ⟨h₁, h₂⟩ := hcs
  subst h₁
  subst h₂
  exact ⟨rfl, rfl⟩

/-- C6 witness: the concrete empty-bodied module on the SystemV target
yields no custom section and no `Dwarf` pointer. -/
theorem empty_module_no_unwind_witness :
    cEmpty.custom_sections = [] ∧ cEmpty.debug = none :=
  empty_module_no_unwind envW targetW moduleW cEmpty (by rfl)

/-- C7: whenever the frame-table precondition holds (so an unwind table is
emitted), the successful aggregate contains exactly one custom section — the
serialized frame table — and its `Dwarf` pointer names exactly that section's
index (`custom_sections.len() - 1 = 0`); and when the precondition fails the
pointer is unset and no section is appended, so the pointer is set only in
that case. -/
theorem dwarf_section_unique {TState Cx : Type} (env : Env TState Cx)
    (target : Target) (module : ModuleInfo) (inputs : List FunctionBodyData)
    (isa : Isa) (c : Compilation)
    (hisa : env.isaResult = .ok isa)
    (h : compile_module_seq env target module inputs = .ok c) :
    (∀ q, mkDwarfFrametable inputs target isa = some q →
      ∃ ft, c.custom_sections =
          [env.write_eh_frame target.endianness.toOption ft] ∧
        c.debug = some (Dwarf.new (c.custom_sections.length - 1)) ∧
        c.custom_sections.length = 1) ∧
    (mkDwarfFrametable inputs target isa = none →
      c.custom_sections = [] ∧ c.debug = none) := by
  obtain ⟨isa', results, fct, dft, cs, dwarf, hisa', hres, hfct, hdft, hcs, rfl⟩ :=
    compile_module_seq_ok_inv h
  rw [hisa] at hisa'
  cases hisa'
  constructor
  · intro q hq
    rw [hq] at hcs
    cases q with
    | mk ft0 cie_id =>
      simp only [emitDwarfSection, List.nil_append, Prod.mk.injEq] at hcs
      obtain ⟨h₁, h₂⟩ := hcs
      subst h₁
      subst h₂
      exact ⟨_, rfl, rfl, rfl⟩
  · intro hq
    rw [hq] at hcs
    simp only [emitDwarfSection, Prod.mk.injEq] at hcs
    obtain ⟨h₁, h₂⟩ := hcs
    subst h₁
    subst h₂
    exact ⟨rfl, rfl⟩

/-- C7 witness: on the concrete SystemV module the aggregate holds exactly
the serialized frame-table section, pointed at by `Dwarf` index 0. -/
theorem dwarf_section_unique_witness :
    ∃ ft, cW.custom_sections =
        [envW.write_eh_frame targetW.endianness.toOption ft] ∧
      cW.debug = some (Dwarf.new (cW.custom_sections.length - 1)) ∧
      cW.custom_sections.length = 1 :=
  (dwarf_section_unique envW targetW moduleW inputsW isaW cW rfl (by rfl)).1
    (FrameTable.default.add_cie cieW) rfl

/-- C4: the trap normalizer maps each of the ten supported backend trap codes
1:1 (injectively) to its portable trap kind with the code offset unchanged,
and fails loudly — never mapping to a default — on the two unsupported
backend kinds (asynchronous interrupt, user-defined code). -/
theorem trap_normalizer_closed :
    (∀ o, mach_trap_to_trap ⟨o, .stackOverflow⟩ = .ok ⟨o, .stackOverflow⟩) ∧
    (∀ o, mach_trap_to_trap ⟨o, .heapOutOfBounds⟩ =
      .ok ⟨o, .heapAccessOutOfBounds⟩) ∧
    (∀ o, mach_trap_to_trap ⟨o, .heapMisaligned⟩ = .ok ⟨o, .heapMisaligned⟩) ∧
    (∀ o, mach_trap_to_trap ⟨o, .tableOutOfBounds⟩ =
      .ok ⟨o, .tableAccessOutOfBounds⟩) ∧
    (∀ o, mach_trap_to_trap ⟨o, .indirectCallToNull⟩ =
      .ok ⟨o, .indirectCallToNull⟩) ∧
    (∀ o, mach_trap_to_trap ⟨o, .badSignature⟩ = .ok ⟨o, .badSignature⟩) ∧
    (∀ o, mach_trap_to_trap ⟨o, .integerOverflow⟩ =
      .ok ⟨o, .integerOverflow⟩) ∧
    (∀ o, mach_trap_to_trap ⟨o, .integerDivisionByZero⟩ =
      .ok ⟨o, .integerDivisionByZero⟩) ∧
    (∀ o, mach_trap_to_trap ⟨o, .badConversionToInteger⟩ =
      .ok ⟨o, .badConversionToInteger⟩) ∧
    (∀ o, mach_trap_to_trap ⟨o, .unreachableCodeReached⟩ =
      .ok ⟨o, .unreachableCodeReached⟩) ∧
    (∀ o, mach_trap_to_trap ⟨o, .interrupt⟩ =
      .error (.internalConsistency "Interrupts not supported")) ∧
    (∀ o u, mach_trap_to_trap ⟨o, .user u⟩ =
      .error (.internalConsistency "User trap code not supported")) ∧
    (∀ t₁ t₂ code, translate_ir_trapcode t₁ = .ok code →
      translate_ir_trapcode t₂ = .ok code → t₁ = t₂) := by
  refine ⟨fun o => rfl, fun o => rfl, fun o => rfl, fun o => rfl, fun o => rfl,
    fun o => rfl, fun o => rfl, fun o => rfl, fun o => rfl, fun o => rfl,
    fun o => rfl, fun o u => rfl, ?_⟩
  intro t₁ t₂ code h₁ h₂
  cases t₁ <;> cases t₂ <;> cases h₁ <;> cases h₂ <;> rfl

/-- C4 witness: a supported code keeps its offset, an unsupported one fails,
and the 1:1 map identifies equal images. -/
theorem trap_normalizer_closed_witness :
    mach_trap_to_trap ⟨42, .stackOverflow⟩ = .ok ⟨42, .stackOverflow⟩ ∧
    mach_trap_to_trap ⟨7, .interrupt⟩ =
      .error (.internalConsistency "Interrupts not supported") ∧
    IrTrapCode.badSignature = IrTrapCode.badSignature := by
  have h := trap_normalizer_closed
  exact ⟨h.1 42, h.2.2.2.2.2.2.2.2.2.2.1 7,
    h.2.2.2.2.2.2.2.2.2.2.2.2 .badSignature .badSignature .badSignature rfl rfl⟩

/-- C3: in a successfully compiled module whose backend relocations name only
existing functions, every `LocalFunc` relocation target carries a local index
strictly below the local-function count; normalizing any backend relocation
whose user-named function index lies inside the module's function index space
yields a local index below the local count; and normalizing one that names an
imported function (outside the local range) produces the
`InternalConsistencyError`, never a silently wrong index. -/
theorem reloc_locality {TState Cx : Type} (env : Env TState Cx)
    (target : Target) (module : ModuleInfo) (inputs : List FunctionBodyData)
    (c : Compilation) (hb : BackendPure env)
    (h : compile_module_seq env target module inputs = .ok c)
    (hwfrel : ∀ p ∈ inputs.enum, ∀ out, outAt env p.1 p.2 = .ok out →
      ∀ mr ∈ out.relocs, ∀ ns index, mr.name = .user ns index →
        index < module.num_imported_functions + inputs.length) :
    (∀ f ∈ c.functions, ∀ r ∈ f.relocations, ∀ l,
      r.reloc_target = .localFunc l → l < inputs.length) ∧
    (∀ (reloc : MachReloc) (ns index l N : Nat) (rel : Relocation),
      reloc.name = .user ns index →
      index < module.num_imported_functions + N →
      mach_reloc_to_reloc module reloc = .ok rel →
      rel.reloc_target = .localFunc l → l < N) ∧
    (∀ (reloc : MachReloc) (ns index : Nat), reloc.name = .user ns index →
      index < module.num_imported_functions →
      mach_reloc_to_reloc module reloc =
        .error (.internalConsistency "The provided function should be local")) := by
  have part2 : ∀ (reloc : MachReloc) (ns index l N : Nat) (rel : Relocation),
      reloc.name = .user ns index →
      index < module.num_imported_functions + N →
      mach_reloc_to_reloc module reloc = .ok rel →
      rel.reloc_target = .localFunc l → l < N := by
    intro reloc ns index l N rel hname hlt hok htarget
    unfold mach_reloc_to_reloc at hok
    rw [hname] at hok
    unfold ModuleInfo.local_func_index at hok
    by_cases hi : index < module.num_imported_functions
    · simp [hi] at hok
    · simp only [hi, if_false] at hok
      cases hok
      simp only [Relocation.mk.injEq] at htarget
      cases htarget
      omega
  have part3 : ∀ (reloc : MachReloc) (ns index : Nat),
      reloc.name = .user ns index →
      index < module.num_imported_functions →
      mach_reloc_to_reloc module reloc =
        .error (.internalConsistency "The provided function should be local") := by
    intro reloc ns index hname hlt
    unfold mach_reloc_to_reloc
    rw [hname]
    unfold ModuleInfo.local_func_index
    simp [hlt]
  refine ⟨?_, part2, part3⟩
  intro f hf r hr l htarget
  obtain ⟨isa, results, fct, dft, cs, dwarf, hisa, hres, hfct, hdft, hcs, hc⟩ :=
    compile_module_seq_ok_inv h
  subst hc
  simp only [Compilation.new] at hf
  obtain ⟨a, ha, rfl⟩ := List.mem_map.mp hf
  obtain ⟨cf, fde⟩ := a
  have hfun := compileOne_snd_pure env module
    (mkDwarfFrametable inputs target isa).isSome hb
  rw [runChunk_eq_mapE _ _ hfun] at hres
  obtain ⟨p, hp, hpok⟩ := mapE_ok_mem _ _ _ hres _ ha
  unfold funcTask at hpok
  obtain ⟨out, relocs, traps, hout, hrel, htr, hcf, hfde⟩ :=
    compileOneResult_ok_inv hpok
  subst hcf
  obtain ⟨mr, hmr, hmrok⟩ := mapE_ok_mem _ _ _ hrel r hr
  cases hmrname : mr.name with
  | user ns index =>
    have hbound := hwfrel p hp out hout mr hmr ns index hmrname
    exact part2 mr ns index l inputs.length r hmrname hbound hmrok htarget
  | libCall lc =>
    unfold mach_reloc_to_reloc at hmrok
    rw [hmrname] at hmrok
    cases hmrok
    simp only [Relocation.mk.injEq] at htarget
    cases htarget
  | testcase =>
    unfold mach_reloc_to_reloc at hmrok
    rw [hmrname] at hmrok
    cases hmrok

/-- C3 witness: in the concrete one-import module, the in-range user
relocation normalizes to a local index below the local count, and the
relocation naming the imported function fails with the
internal-consistency error. -/
theorem reloc_locality_witness :
    (0 : Nat) < 1 ∧
    mach_reloc_to_reloc moduleW ⟨0, 0, .user 0 0, 0⟩ =
      .error (.internalConsistency "The provided function should be local") := by
  have h := reloc_locality envW targetW moduleW inputsW cW
    (fun _ _ _ _ => rfl) (by rfl)
    (by
      intro p hp out hout mr hmr ns index hname
      cases hout
      simp [outW] at hmr)
  exact ⟨h.2.1 ⟨0, 0, .user 0 1, 0⟩ 0 1 0 1 ⟨0, .localFunc 0, 0, 0⟩ rfl
      (by decide) (by rfl) rfl,
    h.2.2 ⟨0, 0, .user 0 0, 0⟩ 0 0 rfl (by decide)⟩

/-- C9: signature-trampoline generation is deterministic: each trampoline
being (per the spec) a pure function of the ISA and the signature with no
shared mutable state beyond the disposable builder context, the pass over a
signature table produces the same machine code from any initial builder
context, and any worker-pool splitting of the pass produces the same bytes
as the sequential pass — so generating the call trampolines twice for the
same signature table on the same target is byte-identical. -/
theorem call_trampolines_deterministic {TState Cx : Type} (env : Env TState Cx)
    (sigs : List FuncType) (cx₁ cx₂ : Cx) (chunks : List (List FuncType))
    (hc : TrampCallPure env) (hchunks : chunks.flatten = sigs) :
    runChunk (fun cx sig => env.make_trampoline_function_call cx sig) cx₁
        sigs =
      runChunk (fun cx sig => env.make_trampoline_function_call cx sig) cx₂
        sigs ∧
    runChunks (fun cx sig => env.make_trampoline_function_call cx sig)
        env.cxNew chunks =
      runChunk (fun cx sig => env.make_trampoline_function_call cx sig) cx₁
        sigs := by
  have hcall : ∀ (cx : Cx) (sig : FuncType),
      (env.make_trampoline_function_call cx sig).2 = callTask env sig :=
    fun cx sig => hc cx env.cxNew sig
  constructor
  · rw [runChunk_eq_mapE _ _ hcall, runChunk_eq_mapE _ _ hcall]
  · rw [runChunks_eq_mapE _ _ hcall, runChunk_eq_mapE _ _ hcall, hchunks]

/-- C9 witness: the concrete one-signature trampoline pass is reproducible
and split-independent. -/
theorem call_trampolines_deterministic_witness :
    runChunk (fun cx sig => envW.make_trampoline_function_call cx sig) ()
        [sigW] =
      runChunk (fun cx sig => envW.make_trampoline_function_call cx sig) ()
        [sigW] ∧
    runChunks (fun cx sig => envW.make_trampoline_function_call cx sig)
        envW.cxNew [[sigW]] =
      runChunk (fun cx sig => envW.make_trampoline_function_call cx sig) ()
        [sigW] :=
  call_trampolines_deterministic envW [sigW] () () [[sigW]]
    (fun _ _ _ => rfl) rfl

/-- C10: when the shared frame table is absent — non-SystemV default calling
convention, or no SystemV CIE — every local function whose backend unwind
descriptor arrives in table-based (FDE) shape ends with `unwind_info = none`
(the descriptor is silently discarded), and an `unwind_info` is ever present
only for a self-contained windows-style descriptor. -/
theorem unwind_discarded_without_frametable {TState Cx : Type}
    (env : Env TState Cx) (target : Target) (module : ModuleInfo)
    (inputs : List FunctionBodyData) (isa : Isa) (c : Compilation)
    (hb : BackendPure env) (hisa : env.isaResult = .ok isa)
    (hnone : mkDwarfFrametable inputs target isa = none)
    (h : compile_module_seq env target module inputs = .ok c) :
    ∀ j input, inputs.get? j = some input →
      ∃ out f, outAt env j input = .ok out ∧ c.functions.get? j = some f ∧
        f.body.unwind_info = out.unwind.maybe_into_to_windows_unwind ∧
        (∀ raw, out.unwind = .fde raw → f.body.unwind_info = none) ∧
        (∀ x, f.body.unwind_info = some x →
          ∃ w, out.unwind = .windowsX64 w ∧ x = .windowsX64 w) := by
  intro j input hj
  obtain ⟨isa', results, fct, dft, cs, dwarf, hisa', hres, hfct, hdft, hcs, hc⟩ :=
    compile_module_seq_ok_inv h
  rw [hisa] at hisa'
  cases hisa'
  subst hc
  have hfun := compileOne_snd_pure env module
    (mkDwarfFrametable inputs target isa).isSome hb
  rw [runChunk_eq_mapE _ _ hfun] at hres
  have hje : inputs.enum.get? j = some (j, input) := by
    rw [List.get?_enum, hj]
    rfl
  obtain ⟨a, hpok, haj⟩ := mapE_ok_get _ _ _ hres j (j, input) hje
  obtain ⟨cf, fde⟩ := a
  unfold funcTask at hpok
  obtain ⟨out, relocs, traps, hout, hrel, htr, hcf, hfde⟩ :=
    compileOneResult_ok_inv hpok
  have hui : cf.body.unwind_info = out.unwind.maybe_into_to_windows_unwind := by
    rw [hcf]
    simp [hnone, unwind_info_and_fde_false]
  refine ⟨out, cf, hout, ?_, hui, ?_, ?_⟩
  · simp only [Compilation.new]
    rw [List.get?_map, haj]
    rfl
  · intro raw hraw
    rw [hui, hraw]
    rfl
  · intro x hx
    rw [hui] at hx
    cases hu : out.unwind with
    | fde raw => rw [hu] at hx; cases hx
    | windowsX64 w =>
      rw [hu] at hx
      cases hx
      exact ⟨w, rfl, rfl⟩
    | noInfo => rw [hu] at hx; cases hx

/-- C10 witness: on the non-SystemV target the concrete FDE-shaped unwind
descriptor of function 0 is discarded: its `unwind_info` is `none`. -/
theorem unwind_discarded_without_frametable_witness :
    ∃ out f, outAt envFde 0 inputW = .ok out ∧
      cNoFt.functions.get? 0 = some f ∧
      f.body.unwind_info = out.unwind.maybe_into_to_windows_unwind ∧
      (∀ raw, out.unwind = .fde raw → f.body.unwind_info = none) ∧
      (∀ x, f.body.unwind_info = some x →
        ∃ w, out.unwind = .windowsX64 w ∧ x = .windowsX64 w) :=
  unwind_discarded_without_frametable envFde targetNoSysV moduleW inputsW
    isaW cNoFt (fun _ _ _ _ => rfl) rfl rfl (by rfl) 0 inputW rfl

/-- C8: when the shared frame table exists, the serialized unwind section is
built by adding the per-function FDEs in local-function-index order (the
order of `inputs.enum`, with absent entries dropped), never in completion
order; every collected FDE is addressed symbolically with `FUNCTION_SYMBOL`
and its function's index as the addend; and the worker-pool mode (any chunk
split, scratch-purity assumed) produces this very same aggregate. -/
theorem fdes_in_index_order {TState Cx : Type} (env : Env TState Cx)
    (target : Target) (module : ModuleInfo) (inputs : List FunctionBodyData)
    (isa : Isa) (ft0 : FrameTable) (cie_id : Nat) (c : Compilation)
    (hb : BackendPure env) (hisa : env.isaResult = .ok isa)
    (hft : mkDwarfFrametable inputs target isa = some (ft0, cie_id))
    (h : compile_module_seq env target module inputs = .ok c) :
    c.custom_sections = [env.write_eh_frame target.endianness.toOption
      ((inputs.enum.filterMap (fdeTaskAt env module)).foldl
        (fun t f => t.add_fde cie_id f) ft0)] ∧
    (∀ p : Nat × FunctionBodyData, ∀ f, fdeTaskAt env module p = some f →
      f.symbol = WriterRelocate.FUNCTION_SYMBOL ∧ f.addend = (p.1 : Int)) ∧
    (∀ funcChunks callChunks dynChunks,
      TrampCallPure env → TrampDynPure env →
      funcChunks.flatten = inputs.enum →
      callChunks.flatten = module.signatures →
      dynChunks.flatten = module.imported_function_types →
      compile_module_rayon env target module inputs funcChunks callChunks
        dynChunks = .ok c) := by
  refine ⟨?_, ?_, ?_⟩
  · obtain ⟨isa', results, fct, dft, cs, dwarf, hisa', hres, hfct, hdft, hcs,
      hc⟩ := compile_module_seq_ok_inv h
    rw [hisa] at hisa'
    cases hisa'
    subst hc
    have hfun := compileOne_snd_pure env module
      (mkDwarfFrametable inputs target isa).isSome hb
    rw [runChunk_eq_mapE _ _ hfun, hft] at hres
    simp only [Option.isSome_some] at hres
    have hmapsnd : results.map Prod.snd =
        inputs.enum.map (fdeTaskAt env module) := by
      refine mapE_ok_map _ _ _ _ ?_ _ hres
      intro x a hx
      unfold fdeTaskAt
      rw [hx]
    rw [hft] at hcs
    simp only [emitDwarfSection, List.nil_append, Prod.mk.injEq] at hcs
    obtain ⟨h₁, h₂⟩ := hcs
    subst h₁
    subst h₂
    simp only [Compilation.new]
    rw [hmapsnd, reduceOption_map_eq_filterMap]
  · intro p f hpf
    unfold fdeTaskAt at hpf
    cases hT : funcTask env module true p with
    | error e => rw [hT] at hpf; cases hpf
    | ok a =>
      rw [hT] at hpf
      obtain ⟨cf, fde⟩ := a
      unfold funcTask at hT
      obtain ⟨out, relocs, traps, hout, hrel, htr, hcf, hfde⟩ :=
        compileOneResult_ok_inv hT
      simp only at hpf
      rw [hfde] at hpf
      cases hu : out.unwind with
      | fde raw =>
        rw [hu] at hpf
        simp only [unwind_info_and_fde, if_true] at hpf
        cases hpf
        exact ⟨rfl, rfl⟩
      | windowsX64 w => rw [hu] at hpf; cases hpf
      | noInfo => rw [hu] at hpf; cases hpf
  · intro funcChunks callChunks dynChunks hc' hd' hfc hcc hdc
    rw [compile_rayon_eq_seq env target module inputs funcChunks callChunks
      dynChunks hb hc' hd' hfc hcc hdc]
    exact h

/-- C8 witness: on the concrete SystemV module the single FDE-shaped
descriptor of function 0 reaches the section in index order with addend 0. -/
theorem fdes_in_index_order_witness :
    cFde.custom_sections = [envFde.write_eh_frame targetW.endianness.toOption
      ((inputsW.enum.filterMap (fdeTaskAt envFde moduleW)).foldl
        (fun t f => t.add_fde (FrameTable.default.add_cie cieW).2 f)
        (FrameTable.default.add_cie cieW).1)] ∧
    (∀ f, fdeTaskAt envFde moduleW (0, inputW) = some f →
      f.symbol = WriterRelocate.FUNCTION_SYMBOL ∧ f.addend = ((0 : Nat) : Int)) := by
  have h := fdes_in_index_order envFde targetW moduleW inputsW isaW
    (FrameTable.default.add_cie cieW).1 (FrameTable.default.add_cie cieW).2
    cFde (fun _ _ _ _ => rfl) rfl rfl (by rfl)
  exact ⟨h.1, fun f hf => h.2.1 (0, inputW) f hf⟩

end Wasmer
